import Mathlib

/-!
Shallow embedding of the go-processbuilder pipeline library (package
processbuilder, latest snapshot: the zerolog-based variant of the source).

External effects are modelled explicitly:
* the OS process layer is an oracle: per-stage spawn results, per-stage wait
  outcomes (the error returned by cmd.Wait together with the exit code read
  from cmd.ProcessState), and the result of Process.Kill are parameters;
* io.Writer / io.Reader endpoints are symbolic references;
* an io.Pipe end is tracked as none (never allocated), some true (open) or
  some false (closed);
* the shared cancellation context is tracked by the hasCancelFn and
  ctxCancelled flags; calling the cancel function is cancelCtx.  In the
  source a pipeline that never went through prepare has a nil cancelFn and
  the deferred cancel call would crash, so theorems about Wait assume
  hasCancelFn = true (a prepared pipeline);
* the global zerolog Logger (set by SetLogger) is modelled by a Boolean
  parameter logger passed to every operation (true when Logger != nil);
  emitted log lines are returned alongside each result so that the
  observability-only role of logging is provable rather than assumed.
-/

set_option maxRecDepth 2000

namespace processbuilder

/-- Symbolic io.Writer endpoints: a caller-supplied writer, the two internal
capture buffers allocated by output, a pipe write end created between two
stages, and the ends exposed by cmd.StdoutPipe and cmd.StderrPipe. -/
inductive Writer where
  | caller (id : Nat)
  | outBuffer
  | errBuffer
  | pipeWriterOf (idx : Nat)
  | stdoutPipeEnd
  | stderrPipeEnd
  deriving Repr, DecidableEq

/-- Symbolic io.Reader endpoints: a caller-supplied reader or the pipe read
end owned by the stage of the given index. -/
inductive Reader where
  | caller (id : Nat)
  | pipeReaderOf (idx : Nat)
  deriving Repr, DecidableEq

/-- syscall.WaitStatus as inspected by getExitCode. -/
structure WaitStatus where
  signaled : Bool
  exitStatus : Int
  deriving Repr, DecidableEq

/-- The error values the source produces or consumes.  exitError models an
exec.ExitError whose Sys() is a syscall.WaitStatus when the payload is some. -/
inductive GoError where
  | errNoCommands
  | errProcAlreadyStarted
  | errProcNotStarted
  | errStdinPlacement
  | errStdoutPlacement
  | errStdoutAlreadySet
  | errStderrAlreadySet
  | exitError (sys : Option WaitStatus)
  | spawnFailure (msg : String)
  | killFailure (msg : String)
  | otherFailure (msg : String)
  deriving Repr, DecidableEq

/-- syscall.SIGINT on the target platform. -/
def SIGINT : Int := 2

/-- zerolog.TraceLevel. -/
def traceLevel : Int := -1

/-- zerolog.DebugLevel. -/
def debugLevel : Int := 0

/-- One stage: the Command struct of the source.  The first five fields are
the descriptor (program, arguments, caller-supplied stream overrides); the
rest is runtime state populated by prepare/Start/Wait.  cmdStdin, cmdStdout
and cmdStderr are the stdio wiring of the underlying exec.Cmd; hasCmd records
that exec.CommandContext has been called; processSpawned models cmd.Process
being non-nil; processKilled records that Process.Kill was invoked on this
stage. -/
structure Command where
  command : String
  args : List String
  StdOut : Option Writer := none
  StdErr : Option Writer := none
  StdIn : Option Reader := none
  hasCmd : Bool := false
  cmdStdin : Option Reader := none
  cmdStdout : Option Writer := none
  cmdStderr : Option Writer := none
  pipeReader : Option Bool := none
  pipeWriter : Option Bool := none
  exitCode : Int := 0
  processSpawned : Bool := false
  processKilled : Bool := false
  deriving Repr, DecidableEq

/-- The Option struct of the source (named POption here because Option is
taken by the Lean prelude).  Timeout is a duration in nanoseconds, zero
meaning no timeout; LogLevel is a zerolog.Level. -/
structure POption where
  Timeout : Nat := 0
  LogLevel : Int := 0
  stdoutPipe : Bool := false
  deriving Repr, DecidableEq

/-- EmptyOption of the source. -/
def EmptyOption : POption := {}

/-- The Processbuilder struct.  hasCancelFn records that prepare installed a
cancel function; ctxCancelled that the shared context has been cancelled;
ctxTimeout that the context carries a deadline; stdoutPipeSet / stderrPipeSet
that the exposed StdoutPipe / StdErrPipe fields were populated. -/
structure Processbuilder where
  cmds : List Command
  option : POption
  started : Bool := false
  exited : Bool := false
  killed : Bool := false
  hasCancelFn : Bool := false
  ctxCancelled : Bool := false
  ctxTimeout : Bool := false
  stdoutPipeSet : Bool := false
  stderrPipeSet : Bool := false
  deriving Repr, DecidableEq

/-- NewCommand of the source. -/
def NewCommand (cmd : String) (args : List String) : Command :=
  { command := cmd, args := args }

/-- Command.WithStdErr. -/
def Command.WithStdErr (c : Command) (w : Writer) : Command :=
  { c with StdErr := some w }

/-- Command.WithStdOut. -/
def Command.WithStdOut (c : Command) (w : Writer) : Command :=
  { c with StdOut := some w }

/-- Command.WithStdIn. -/
def Command.WithStdIn (c : Command) (r : Reader) : Command :=
  { c with StdIn := some r }

/-- filepath.Base, as used by Command.String (empty path gives a dot, a path
of only separators gives the separator, otherwise the last component). -/
def filepathBase (path : String) : String :=
  if path = "" then "."
  else
    match ((path.splitOn "/").filter (fun s => s ≠ "")).getLast? with
    | some t => t
    | none => "/"

/-- Command.String: basename of the program followed by the joined
arguments. -/
def Command.String (c : Command) : String :=
  filepathBase c.command ++ " " ++ String.intercalate " " c.args

/-- Processbuilder.String. -/
def Processbuilder.String (p : Processbuilder) : String :=
  "ProcessBuilder(" ++ String.intercalate " | " (p.cmds.map Command.String)
    ++ ", started=" ++ toString p.started ++ ", exited=" ++ toString p.exited ++ ")"

/-- Processbuilder.Count. -/
def Processbuilder.Count (p : Processbuilder) : Nat :=
  p.cmds.length

/-- Processbuilder.GetCmd.  The source indexes p.cmds[index].cmd without a
bounds check and panics when index is outside 0 ≤ index < Count; the
embedding returns none on that branch and the wired stage otherwise (the
returned Command carries the runtime handle fields of the exec.Cmd). -/
def Processbuilder.GetCmd (p : Processbuilder) (index : Int) : Option Command :=
  if h : 0 ≤ index ∧ index.toNat < p.cmds.length then
    some (p.cmds.get ⟨index.toNat, h.2⟩)
  else none

/-- Command.close: close both pipe ends when they were allocated (closing an
io.Pipe end is idempotent, so an already closed end just stays closed). -/
def Command.close (c : Command) : Command :=
  { c with pipeWriter := c.pipeWriter.map (fun _ => false),
           pipeReader := c.pipeReader.map (fun _ => false) }

/-- Processbuilder.close: mark the pipeline exited and close every stage. -/
def Processbuilder.close (p : Processbuilder) : Processbuilder :=
  { p with exited := true, cmds := p.cmds.map Command.close }

/-- Invoking p.cancelFn(): cancels the shared context.  Meaningful only for
a prepared pipeline (hasCancelFn = true); on a never-prepared pipeline the
source would dereference a nil function instead. -/
def cancelCtx (p : Processbuilder) : Processbuilder :=
  { p with ctxCancelled := true }

/-- getExitCode: start from cmd.ProcessState.ExitCode() and, when the wait
error is an exec.ExitError whose Sys() is a syscall.WaitStatus, replace it by
SIGINT for a signal-terminated process and by the wait status otherwise. -/
def getExitCode (stateExitCode : Int) (err : GoError) : Int :=
  match err with
  | GoError.exitError (some s) => if s.signaled then SIGINT else s.exitStatus
  | _ => stateExitCode

/-- What the OS reports when Wait (or Run) is called on one stage: the error
returned by cmd.Wait and the exit code subsequently read from
cmd.ProcessState. -/
structure WaitOutcome where
  err : Option GoError
  stateCode : Int
  deriving Repr, DecidableEq

/-- Result shape of the state-transforming operations prepare, Start, Kill
and Cancel: the updated pipeline, the returned error and the log lines
emitted through the injected logger. -/
structure StepRes where
  pb : Processbuilder
  err : Option GoError
  logs : List String
  deriving Repr, DecidableEq

/-- Kill: logs, sets the kill-requested flag, rejects a pipeline that is not
started or already exited, then signals the first stage only and marks the
pipeline exited.  killRes is the error returned by Process.Kill. -/
def Kill (p : Processbuilder) (killRes : Option GoError) (logger : Bool) : StepRes :=
  let logs := if logger && decide (p.option.LogLevel ≤ debugLevel)
    then ["Killing process..."] else []
  let p1 := { p with killed := true }
  if !p1.started || p1.exited then ⟨p1, some GoError.errProcNotStarted, logs⟩
  else if 0 < p1.cmds.length then
    let cmds := match p1.cmds with
      | c0 :: tl => { c0 with processKilled := true } :: tl
      | [] => []
    ⟨{ p1 with cmds := cmds, killed := true, exited := true }, killRes, logs⟩
  else ⟨p1, none, logs⟩

/-- Cancel: logs, sets the kill-requested flag, rejects a pipeline that is
not started or already exited, otherwise marks it exited and cancels the
shared context. -/
def Cancel (p : Processbuilder) (logger : Bool) : StepRes :=
  let logs := if logger && decide (p.option.LogLevel ≤ debugLevel)
    then ["Cancelling process..."] else []
  let p1 := { p with killed := true }
  if !p1.started || p1.exited then ⟨p1, some GoError.errProcNotStarted, logs⟩
  else ⟨cancelCtx { p1 with exited := true }, none, logs⟩

/-- Result of the stage-wiring loop of prepare: the rebuilt command list,
whether p.StdoutPipe and p.StdErrPipe were populated, the error (none on
success) and the emitted log lines. -/
structure PrepLoopRes where
  cmds : List Command
  soPipe : Bool
  sePipe : Bool
  err : Option GoError
  logs : List String
  deriving Repr, DecidableEq

/-- Wiring of an explicit error sink: command.cmd.Stderr = command.StdErr. -/
def wireStderr (c : Command) : Command :=
  match c.StdErr with
  | some w => { c with cmdStderr := some w }
  | none => c

/-- Wiring of the first stage input: command.cmd.Stdin = command.StdIn. -/
def wireStdinFirst (c : Command) : Command :=
  match c.StdIn with
  | some r => { c with cmdStdin := some r }
  | none => c

/-- The effect of command.cmd = exec.CommandContext(ctx, ...): a fresh
runtime handle bound to the shared context, with empty stdio wiring. -/
def prepInit (c : Command) : Command :=
  { c with hasCmd := true, cmdStdin := none, cmdStdout := none, cmdStderr := none }

/-- The mode-independent wiring of one stage after the placement checks
passed: the error sink, the stdin source (the caller reader on stage 0, the
pipe read end of the previous stage otherwise) and, on every non-terminal
stage, a freshly allocated pipe whose write end becomes stdout. -/
def wireStage (c : Command) (idx total : Nat) : Command :=
  let c1 := wireStderr (prepInit c)
  let c2 := if idx = 0 then wireStdinFirst c1 else c1
  let c3 := if 0 < idx then { c2 with cmdStdin := some (Reader.pipeReaderOf (idx - 1)) }
            else c2
  if idx < total - 1 then
    { c3 with pipeWriter := some true, pipeReader := some true,
              cmdStdout := some (Writer.pipeWriterOf idx) }
  else c3

/-- The per-stage loop of prepare.  idx is the index of the head of rest in
the original list; done is the reversed list of already wired stages.  Each
iteration creates a fresh exec.Cmd bound to the shared context, runs the two
placement checks, wires the error sink, the stdin source (caller reader for
stage 0, the previous pipe read end otherwise), allocates a pipe for every
non-terminal stage, and resolves the terminal stage by mode (StdoutPipe /
StderrPipe exposure when stdoutPipe is requested, the caller sink
otherwise). -/
def prepareCmds (so : Bool) (logger : Bool) (ll : Int) (total : Nat) :
    Nat → List Command → List Command → PrepLoopRes
  | _idx, done, [] => ⟨done.reverse, false, false, none, []⟩
  | idx, done, c :: rest =>
    let l1 := if logger && decide (ll ≤ traceLevel)
      then [toString idx ++ "/" ++ toString total ++ " preparing " ++ Command.String c]
      else []
    if idx ≠ 0 ∧ (prepInit c).StdIn ≠ none then
      ⟨done.reverse ++ prepInit c :: rest, false, false,
       some GoError.errStdinPlacement, l1⟩
    else if idx ≠ total - 1 ∧ (prepInit c).StdOut ≠ none then
      ⟨done.reverse ++ prepInit c :: rest, false, false,
       some GoError.errStdoutPlacement, l1⟩
    else
      let c4 := wireStage c idx total
      if idx = total - 1 then
        if so then
          let l2 := if logger && decide (ll ≤ traceLevel)
            then ["using cmd.StdoutPipe on " ++ Command.String c] else []
          if c4.cmdStdout ≠ none then
            ⟨done.reverse ++ c4 :: rest, false, false, some GoError.errStdoutAlreadySet,
             l1 ++ l2⟩
          else
            let c5 := { c4 with cmdStdout := some Writer.stdoutPipeEnd }
            if c5.cmdStderr ≠ none then
              ⟨done.reverse ++ c5 :: rest, true, false, some GoError.errStderrAlreadySet,
               l1 ++ l2⟩
            else
              let c6 := { c5 with cmdStderr := some Writer.stderrPipeEnd }
              let r := prepareCmds so logger ll total (idx + 1) (c6 :: done) rest
              ⟨r.cmds, true, true, r.err, l1 ++ l2 ++ r.logs⟩
        else
          match c4.StdOut with
          | some w =>
            let l2 := if logger && decide (ll ≤ traceLevel)
              then ["using cmd.StdOut on " ++ Command.String c] else []
            let r := prepareCmds so logger ll total (idx + 1)
                ({ c4 with cmdStdout := some w } :: done) rest
            ⟨r.cmds, r.soPipe, r.sePipe, r.err, l1 ++ l2 ++ r.logs⟩
          | none =>
            let r := prepareCmds so logger ll total (idx + 1) (c4 :: done) rest
            ⟨r.cmds, r.soPipe, r.sePipe, r.err, l1 ++ r.logs⟩
      else
        let r := prepareCmds so logger ll total (idx + 1) (c4 :: done) rest
        ⟨r.cmds, r.soPipe, r.sePipe, r.err, l1 ++ r.logs⟩

/-- Processbuilder.prepare: reject an empty command list, log the pipeline,
create the shared context (with a deadline when a positive timeout is
configured) and wire every stage.  On a wiring failure the source returns
nil together with the error; the mutations to the receiver are what pb
records. -/
def Processbuilder.prepare (p : Processbuilder) (logger : Bool) : StepRes :=
  let total := p.cmds.length
  if total = 0 then ⟨p, some GoError.errNoCommands, []⟩
  else
    let l0 := if logger && decide (p.option.LogLevel ≤ debugLevel)
      then ["Executing " ++ String.intercalate " | " (p.cmds.map Command.String)]
      else []
    let p1 := { p with hasCancelFn := true, ctxCancelled := false,
                       ctxTimeout := p.option.Timeout != 0 }
    let r := prepareCmds p.option.stdoutPipe logger p.option.LogLevel total 0 [] p1.cmds
    ⟨{ p1 with cmds := r.cmds, stdoutPipeSet := r.soPipe, stderrPipeSet := r.sePipe },
     r.err, l0 ++ r.logs⟩

/-- Result shape of the construction entry points Create and PipeOutput: the
pipeline (none when construction failed), the error and the log lines. -/
structure CreateRes where
  pb : Option Processbuilder
  err : Option GoError
  logs : List String
  deriving Repr, DecidableEq

/-- Create: build a pipeline from the option and command list and prepare
it. -/
def Create (option : POption) (cmd : List Command) (logger : Bool) : CreateRes :=
  let p : Processbuilder := { cmds := cmd, option := option }
  let r := p.prepare logger
  match r.err with
  | some e => ⟨none, some e, r.logs⟩
  | none => ⟨some r.pb, none, r.logs⟩

/-- PipeOutput: Create with the stdoutPipe mode forced on. -/
def PipeOutput (option : POption) (cmd : List Command) (logger : Bool) : CreateRes :=
  let option1 := { option with stdoutPipe := true }
  let p : Processbuilder := { cmds := cmd, option := option1 }
  let r := p.prepare logger
  match r.err with
  | some e => ⟨none, some e, r.logs⟩
  | none => ⟨some r.pb, none, r.logs⟩

/-- Result of the spawn loop of Start. -/
structure StartLoopRes where
  cmds : List Command
  err : Option GoError
  logs : List String
  deriving Repr, DecidableEq

/-- The spawn loop of Start: call cmd.Start on every stage in declared
order, stopping at the first spawn failure.  spawn is the OS oracle giving
the result of cmd.Start for each stage index. -/
def startGo (spawn : Nat → Option GoError) (logger : Bool) (ll : Int) (total : Nat) :
    Nat → List Command → List Command → StartLoopRes
  | _idx, done, [] => ⟨done.reverse, none, []⟩
  | idx, done, c :: rest =>
    let l1 := if logger && decide (ll ≤ traceLevel)
      then [toString idx ++ "/" ++ toString total ++ " calling start on command "
              ++ Command.String c]
      else []
    match spawn idx with
    | some e => ⟨done.reverse ++ c :: rest, some e, l1⟩
    | none =>
      let r := startGo spawn logger ll total (idx + 1)
          ({ c with processSpawned := true } :: done) rest
      ⟨r.cmds, r.err, l1 ++ r.logs⟩

/-- Start: reject a pipeline that is already started or exited (running the
deferred close and context cancel on that path), otherwise mark the pipeline
started before spawning and spawn every stage in order; on the first spawn
failure run the deferred close and cancel and return the error. -/
def Start (p : Processbuilder) (spawn : Nat → Option GoError) (logger : Bool) : StepRes :=
  if p.started || p.exited then
    ⟨cancelCtx p.close, some GoError.errProcAlreadyStarted, []⟩
  else
    let p1 := { p with started := true }
    let r := startGo spawn logger p1.option.LogLevel p1.cmds.length 0 [] p1.cmds
    match r.err with
    | some e => ⟨cancelCtx ({ p1 with cmds := r.cmds }).close, some e, r.logs⟩
    | none => ⟨{ p1 with cmds := r.cmds }, none, r.logs⟩

/-- Close the pipe write end of a stage when it was allocated
(command.pipeWriter.Close() guarded by a nil check). -/
def closeWriterEnd (c : Command) : Command :=
  { c with pipeWriter := c.pipeWriter.map (fun _ => false) }

/-- Close the pipe read end of a stage when it was allocated. -/
def closeReaderEnd (c : Command) : Command :=
  { c with pipeReader := c.pipeReader.map (fun _ => false) }

/-- Result of the wait loop: the rebuilt command list, the first failure
(reported exit code, failing stage index, wait error) or none when every
stage completed cleanly, and the log lines. -/
structure WaitLoopRes where
  cmds : List Command
  fail : Option (Int × Nat × GoError)
  logs : List String
  deriving Repr, DecidableEq

/-- The per-stage loop of Wait: block on each stage in declared order.  On a
wait error, reconcile the exit code through getExitCode, force it to SIGINT
when the kill-requested flag is set, and stop.  On clean completion of a
stage record its exit code, close its pipe write end and close the pipe read
end of the previous stage (the head of done). -/
def waitGo (killed : Bool) (w : Nat → WaitOutcome) (logger : Bool) (ll : Int)
    (total : Nat) : Nat → List Command → List Command → WaitLoopRes
  | _idx, done, [] => ⟨done.reverse, none, []⟩
  | idx, done, c :: rest =>
    let l1 := if logger && decide (ll ≤ traceLevel)
      then [toString idx ++ "/" ++ toString total ++ " calling wait on command "
              ++ Command.String c]
      else []
    match (w idx).err with
    | some e =>
      let l2 := if logger && decide (ll ≤ traceLevel)
        then [toString idx ++ "/" ++ toString total ++ " wait exited with error"]
        else []
      let code0 := getExitCode (w idx).stateCode e
      let code := if killed then SIGINT else code0
      ⟨done.reverse ++ c :: rest, some (code, idx, e), l1 ++ l2⟩
    | none =>
      let c1 := closeWriterEnd { c with exitCode := (w idx).stateCode }
      let done1 := if 0 < idx then
          (match done with
           | pc :: ds => closeReaderEnd pc :: ds
           | [] => [])
        else done
      let r := waitGo killed w logger ll total (idx + 1) (c1 :: done1) rest
      ⟨r.cmds, r.fail, l1 ++ r.logs⟩

/-- Result shape of Wait and Run: the updated pipeline, the returned exit
code, the stage index whose os.ProcessState pointer is returned (none for a
nil ProcessState), the returned error and the log lines. -/
structure WaitRes where
  pb : Processbuilder
  code : Int
  procState : Option Nat
  err : Option GoError
  logs : List String
  deriving Repr, DecidableEq

/-- Wait: the deferred context cancel and close run on every return path
(they are registered before the state check).  A pipeline that is not
started or already exited yields (-1, nil, ErrProcNotStarted).  Otherwise the
stages are waited on in order; the first failure is returned with the
reconciled exit code, and when every stage completes cleanly the terminal
stage exit code and process state are returned.  The signal channel the
source registers here only feeds the external signal bridge and touches no
pipeline state, so it has no counterpart in the embedding. -/
def Wait (p : Processbuilder) (w : Nat → WaitOutcome) (logger : Bool) : WaitRes :=
  let total := p.cmds.length
  if !p.started || p.exited then
    ⟨cancelCtx p.close, -1, none, some GoError.errProcNotStarted, []⟩
  else
    let r := waitGo p.killed w logger p.option.LogLevel total 0 [] p.cmds
    match r.fail with
    | some (code, idx, e) =>
      ⟨cancelCtx ({ p with cmds := r.cmds }).close, code, some idx, some e, r.logs⟩
    | none =>
      let lastCode := match r.cmds.getLast? with
        | some c => c.exitCode
        | none => 0
      ⟨cancelCtx ({ p with cmds := r.cmds }).close, lastCode, some (total - 1), none,
       r.logs⟩

/-- The per-stage loop of Run, structurally the wait loop with cmd.Run in
place of cmd.Wait (so a clean stage is additionally marked as spawned). -/
def runGo (killed : Bool) (w : Nat → WaitOutcome) (logger : Bool) (ll : Int)
    (total : Nat) : Nat → List Command → List Command → WaitLoopRes
  | _idx, done, [] => ⟨done.reverse, none, []⟩
  | idx, done, c :: rest =>
    let l1 := if logger && decide (ll ≤ traceLevel)
      then [toString idx ++ "/" ++ toString total ++ " calling run on command "
              ++ Command.String c]
      else []
    match (w idx).err with
    | some e =>
      let l2 := if logger && decide (ll ≤ traceLevel)
        then [toString idx ++ "/" ++ toString total ++ " run exited with error"]
        else []
      let code0 := getExitCode (w idx).stateCode e
      let code := if killed then SIGINT else code0
      ⟨done.reverse ++ c :: rest, some (code, idx, e), l1 ++ l2⟩
    | none =>
      let c1 := closeWriterEnd { c with processSpawned := true,
                                        exitCode := (w idx).stateCode }
      let done1 := if 0 < idx then
          (match done with
           | pc :: ds => closeReaderEnd pc :: ds
           | [] => [])
        else done
      let r := runGo killed w logger ll total (idx + 1) (c1 :: done1) rest
      ⟨r.cmds, r.fail, l1 ++ r.logs⟩

/-- Run: Start and Wait fused into one loop; the deferred cancel and close
run on every return path, a pipeline that is already started or exited
yields (-1, nil, ErrProcAlreadyStarted), and otherwise the pipeline is
marked started before the loop. -/
def Run (p : Processbuilder) (w : Nat → WaitOutcome) (logger : Bool) : WaitRes :=
  let total := p.cmds.length
  if p.started || p.exited then
    ⟨cancelCtx p.close, -1, none, some GoError.errProcAlreadyStarted, []⟩
  else
    let p1 := { p with started := true }
    let r := runGo p1.killed w logger p1.option.LogLevel total 0 [] p1.cmds
    match r.fail with
    | some (code, idx, e) =>
      ⟨cancelCtx ({ p1 with cmds := r.cmds }).close, code, some idx, some e, r.logs⟩
    | none =>
      let lastCode := match r.cmds.getLast? with
        | some c => c.exitCode
        | none => 0
      ⟨cancelCtx ({ p1 with cmds := r.cmds }).close, lastCode, some (total - 1), none,
       r.logs⟩

/-- The sink installation performed by output on the terminal stage: the
internal capture buffer becomes stdout only when the caller supplied no
output sink, and the internal error buffer becomes stderr unconditionally. -/
def installOutputSinks (c : Command) : Command :=
  let c1 := if c.StdOut = none then { c with StdOut := some Writer.outBuffer } else c
  { c1 with StdErr := some Writer.errBuffer }

/-- Result shape of output and Output: the final pipeline state, whether the
stdout and stderr buffer pointers returned to the caller are non-nil, the
exit code, the returned process state, the error and the log lines. -/
structure OutputRes where
  pb : Processbuilder
  outBuf : Bool
  errBuf : Bool
  code : Int
  procState : Option Nat
  err : Option GoError
  logs : List String
  deriving Repr, DecidableEq

/-- Processbuilder.output: capture-mode composition.  Reject an empty
pipeline, install the capture buffers on the terminal stage, then prepare,
Start and Wait, propagating the first error with the tuple shapes of the
source. -/
def Processbuilder.output (p : Processbuilder) (spawn : Nat → Option GoError)
    (w : Nat → WaitOutcome) (logger : Bool) : OutputRes :=
  let total := p.Count
  if total = 0 then ⟨p, false, false, -1, none, some GoError.errNoCommands, []⟩
  else
    let cmds := match p.cmds.getLast? with
      | some lc => p.cmds.dropLast ++ [installOutputSinks lc]
      | none => p.cmds
    let p0 := { p with cmds := cmds }
    let pr := p0.prepare logger
    match pr.err with
    | some e => ⟨pr.pb, false, true, 0, none, some e, pr.logs⟩
    | none =>
      let sr := Start pr.pb spawn logger
      match sr.err with
      | some e => ⟨sr.pb, true, true, -1, none, some e, pr.logs ++ sr.logs⟩
      | none =>
        let wr := Wait sr.pb w logger
        ⟨wr.pb, true, true, wr.code, wr.procState, wr.err,
         pr.logs ++ sr.logs ++ wr.logs⟩

/-- Output: build a pipeline and run it in capture mode.  The source
returns only the tuple; the embedding also exposes the final builder state
in pb. -/
def Output (option : POption) (cmds : List Command) (spawn : Nat → Option GoError)
    (w : Nat → WaitOutcome) (logger : Bool) : OutputRes :=
  let p : Processbuilder := { cmds := cmds, option := option }
  p.output spawn w logger

/-- One lifecycle operation together with its OS oracle, for stating
properties of arbitrary operation sequences. -/
inductive Op where
  | prep (logger : Bool)
  | start (spawn : Nat → Option GoError) (logger : Bool)
  | wait (w : Nat → WaitOutcome) (logger : Bool)
  | run (w : Nat → WaitOutcome) (logger : Bool)
  | kill (killRes : Option GoError) (logger : Bool)
  | cancel (logger : Bool)

/-- The state reached by applying one operation. -/
def applyOp (p : Processbuilder) : Op → Processbuilder
  | Op.prep logger => (p.prepare logger).pb
  | Op.start spawn logger => (Start p spawn logger).pb
  | Op.wait w logger => (Wait p w logger).pb
  | Op.run w logger => (Run p w logger).pb
  | Op.kill killRes logger => (Kill p killRes logger).pb
  | Op.cancel logger => (Cancel p logger).pb

/-- The state reached by a sequence of operations. -/
def applySeq (p : Processbuilder) : List Op → Processbuilder
  | [] => p
  | op :: ops => applySeq (applyOp p op) ops

/-- The caller-facing sinks of a stage: its output sink and error sink. -/
def sinks (c : Command) : Option Writer × Option Writer :=
  (c.StdOut, c.StdErr)

/-- Oracle of an OS where every wait returns cleanly with exit code 0. -/
def exWaitOk : Nat → WaitOutcome := fun _ => ⟨none, 0⟩

/-- Oracle of an OS where every spawn succeeds. -/
def exSpawnOk : Nat → Option GoError := fun _ => none

/-- Oracle of an OS where every wait fails with an exec.ExitError whose
WaitStatus says the process was terminated by a signal. -/
def exSigOutcome : Nat → WaitOutcome :=
  fun _ => ⟨some (GoError.exitError (some ⟨true, 137⟩)), -1⟩

/-- A concrete stage. -/
def exCmd : Command := NewCommand "ls" ["-la"]

/-- A concrete prepared single-stage pipeline in the Created state. -/
def exCreated : Processbuilder :=
  { cmds := [exCmd], option := EmptyOption, hasCancelFn := true }

/-- The same pipeline in the Started state. -/
def exStarted : Processbuilder := { exCreated with started := true }

/-- A single-stage pipeline whose terminal stage carries a caller-supplied
output sink and a caller-supplied error sink. -/
def exC6 : Processbuilder :=
  { cmds := [((NewCommand "ls" ["-la"]).WithStdErr (Writer.caller 0)).WithStdOut
      (Writer.caller 1)],
    option := EmptyOption }

/-- Three stages where stage 1 has an output override and stage 2 has an
input override. -/
def exC7cmds : List Command :=
  [NewCommand "a" [], (NewCommand "b" []).WithStdOut (Writer.caller 0),
   (NewCommand "c" []).WithStdIn (Reader.caller 1)]

/-- Two stages where only stage 1 has an input override. -/
def exC7b : List Command :=
  [NewCommand "a" [], (NewCommand "b" []).WithStdIn (Reader.caller 0)]

theorem cleanup_state (q : Processbuilder) :
    (cancelCtx q.close).exited = true ∧ (cancelCtx q.close).ctxCancelled = true ∧
    ∀ c ∈ (cancelCtx q.close).cmds,
      c.pipeWriter ≠ some true ∧ c.pipeReader ≠ some true := by
  refine ⟨rfl, rfl, ?_⟩
  intro c hc
  simp only [cancelCtx, Processbuilder.close, List.mem_map] at hc
  obtain ⟨c0, _, rfl⟩ := hc
  constructor
  · cases h : c0.pipeWriter <;> simp [Command.close, h]
  · cases h : c0.pipeReader <;> simp [Command.close, h]

theorem Wait_pb_shape (p : Processbuilder) (w : Nat → WaitOutcome) (logger : Bool) :
    ∃ q : Processbuilder, (Wait p w logger).pb = cancelCtx q.close := by
  unfold Wait
  dsimp only
  split
  · exact ⟨p, rfl⟩
  · rcases hf : (waitGo p.killed w logger p.option.LogLevel p.cmds.length 0 [] p.cmds).fail
      with _ | ⟨code, idx, e⟩ <;> exact ⟨_, rfl⟩

/-- C10: GetCmd has no bounds check at the public interface: inside
0 ≤ i < Count it returns stage i, and for any index outside that range the
call does not return normally (modelled as none); callers must guard with
Count. -/
theorem getCmd_bounds (p : Processbuilder) (i : Int) :
    (∀ h : 0 ≤ i ∧ i.toNat < p.Count,
      p.GetCmd i = some (p.cmds.get ⟨i.toNat, h.2⟩)) ∧
    ((i < 0 ∨ (p.Count : Int) ≤ i) → p.GetCmd i = none) := by
  constructor
  · intro h
    have h2 : 0 ≤ i ∧ i.toNat < p.cmds.length := h
    simp only [Processbuilder.GetCmd]
    rw [dif_pos h2]
  · intro h
    have hneg : ¬(0 ≤ i ∧ i.toNat < p.cmds.length) := by
      rcases h with h | h
      · intro hc; omega
      · intro hc
        simp only [Processbuilder.Count] at h
        omega
    simp only [Processbuilder.GetCmd]
    rw [dif_neg hneg]

theorem getCmd_bounds_witness :
    (0 ≤ (0 : Int) ∧ (0 : Int).toNat < exCreated.Count) ∧
    exCreated.GetCmd 0 = some exCmd ∧ exCreated.GetCmd 5 = none := by
  refine ⟨⟨by decide, by decide⟩, ?_, ?_⟩
  · have h := (getCmd_bounds exCreated 0).1 ⟨by decide, by decide⟩
    simpa using h
  · exact (getCmd_bounds exCreated 5).2 (Or.inr (by decide))

/-- C2 counterexample: on a concrete prepared pipeline still in the Created
state, Kill does return the not-started state error, but it does not leave
the state unchanged: the kill-requested flag is set before the state check,
so the claim as stated is false at this input. -/
theorem kill_on_created_mutates_state :
    (Kill exCreated none false).err = some GoError.errProcNotStarted ∧
    (Kill exCreated none false).pb.killed = true ∧
    exCreated.killed = false := by
  refine ⟨rfl, rfl, rfl⟩

/-- C3: on every return path of Wait of a prepared pipeline (clean
completion, a failing stage, or the not-started rejection) the deferred
cleanup has run: the pipeline is in the Exited state, the shared context is
cancelled, and no pipe end of any stage is left open. -/
theorem wait_unconditional_cleanup (p : Processbuilder) (w : Nat → WaitOutcome)
    (logger : Bool) (hprep : p.hasCancelFn = true) :
    (Wait p w logger).pb.exited = true ∧
    (Wait p w logger).pb.ctxCancelled = true ∧
    ∀ c ∈ (Wait p w logger).pb.cmds,
      c.pipeWriter ≠ some true ∧ c.pipeReader ≠ some true := by
  obtain ⟨q, hq⟩ := Wait_pb_shape p w logger
  rw [hq]
  exact cleanup_state q

theorem wait_unconditional_cleanup_witness :
    exCreated.hasCancelFn = true ∧ (Wait exCreated exWaitOk false).pb.exited = true :=
  ⟨rfl, (wait_unconditional_cleanup exCreated exWaitOk false rfl).1⟩

theorem prepare_mono (p : Processbuilder) (logger : Bool) :
    (p.started = true → (p.prepare logger).pb.started = true) ∧
    (p.exited = true → (p.prepare logger).pb.exited = true) := by
  unfold Processbuilder.prepare
  dsimp only
  split
  · exact ⟨fun h => h, fun h => h⟩
  · exact ⟨fun h => h, fun h => h⟩

theorem Start_mono (p : Processbuilder) (spawn : Nat → Option GoError) (logger : Bool) :
    (p.started = true → (Start p spawn logger).pb.started = true) ∧
    (p.exited = true → (Start p spawn logger).pb.exited = true) := by
  unfold Start
  dsimp only
  split
  · exact ⟨fun h => h, fun _ => rfl⟩
  · rcases he : (startGo spawn logger p.option.LogLevel p.cmds.length 0 [] p.cmds).err
      with _ | e
    · exact ⟨fun _ => rfl, fun h => h⟩
    · exact ⟨fun _ => rfl, fun _ => rfl⟩

theorem Wait_mono (p : Processbuilder) (w : Nat → WaitOutcome) (logger : Bool) :
    (p.started = true → (Wait p w logger).pb.started = true) ∧
    (p.exited = true → (Wait p w logger).pb.exited = true) := by
  unfold Wait
  dsimp only
  split
  · exact ⟨fun h => h, fun _ => rfl⟩
  · rcases hf : (waitGo p.killed w logger p.option.LogLevel p.cmds.length 0 [] p.cmds).fail
      with _ | ⟨code, idx, e⟩
    · exact ⟨fun h => h, fun _ => rfl⟩
    · exact ⟨fun h => h, fun _ => rfl⟩

theorem Run_mono (p : Processbuilder) (w : Nat → WaitOutcome) (logger : Bool) :
    (p.started = true → (Run p w logger).pb.started = true) ∧
    (p.exited = true → (Run p w logger).pb.exited = true) := by
  unfold Run
  dsimp only
  split
  · exact ⟨fun h => h, fun _ => rfl⟩
  · rcases hf : (runGo p.killed w logger p.option.LogLevel p.cmds.length 0 [] p.cmds).fail
      with _ | ⟨code, idx, e⟩
    · exact ⟨fun _ => rfl, fun _ => rfl⟩
    · exact ⟨fun _ => rfl, fun _ => rfl⟩

theorem Kill_mono (p : Processbuilder) (killRes : Option GoError) (logger : Bool) :
    (p.started = true → (Kill p killRes logger).pb.started = true) ∧
    (p.exited = true → (Kill p killRes logger).pb.exited = true) := by
  unfold Kill
  dsimp only
  split
  · exact ⟨fun h => h, fun h => h⟩
  · split
    · exact ⟨fun h => h, fun _ => rfl⟩
    · exact ⟨fun h => h, fun h => h⟩

theorem Cancel_mono (p : Processbuilder) (logger : Bool) :
    (p.started = true → (Cancel p logger).pb.started = true) ∧
    (p.exited = true → (Cancel p logger).pb.exited = true) := by
  unfold Cancel
  dsimp only
  split
  · exact ⟨fun h => h, fun h => h⟩
  · exact ⟨fun h => h, fun _ => rfl⟩

theorem applyOp_mono (p : Processbuilder) (op : Op) :
    (p.started = true → (applyOp p op).started = true) ∧
    (p.exited = true → (applyOp p op).exited = true) := by
  cases op with
  | prep lg => exact prepare_mono p lg
  | start s lg => exact Start_mono p s lg
  | wait w lg => exact Wait_mono p w lg
  | run w lg => exact Run_mono p w lg
  | kill kr lg => exact Kill_mono p kr lg
  | cancel lg => exact Cancel_mono p lg

/-- C8: the lifecycle is monotonic across every sequence of operations:
once the started flag or the exited flag is set, no later prepare, Start,
Wait, Run, Kill or Cancel ever clears it. -/
theorem lifecycle_flags_monotonic (p : Processbuilder) (ops : List Op) :
    (p.started = true → (applySeq p ops).started = true) ∧
    (p.exited = true → (applySeq p ops).exited = true) := by
  induction ops generalizing p with
  | nil => exact ⟨fun h => h, fun h => h⟩
  | cons op ops ih =>
    have h1 := applyOp_mono p op
    have h2 := ih (applyOp p op)
    exact ⟨fun hs => h2.1 (h1.1 hs), fun he => h2.2 (h1.2 he)⟩

theorem lifecycle_flags_monotonic_witness :
    (applySeq exStarted [Op.cancel false, Op.kill none true]).started = true :=
  (lifecycle_flags_monotonic exStarted [Op.cancel false, Op.kill none true]).1 rfl

theorem map_close_spawned (l : List Command) :
    (l.map Command.close).map Command.processSpawned = l.map Command.processSpawned := by
  induction l with
  | nil => rfl
  | cons c tl ih => simp [Command.close, ih]

theorem map_close_killed (l : List Command) :
    (l.map Command.close).map Command.processKilled = l.map Command.processKilled := by
  induction l with
  | nil => rfl
  | cons c tl ih => simp [Command.close, ih]

/-- C5: Kill on a started, non-exited pipeline signals the first stage only
(the tail is untouched), sets the kill-requested flag, marks the pipeline
exited and returns the result of Process.Kill; any subsequent Kill on the
now-exited pipeline returns the not-started state error. -/
theorem kill_first_stage_only (p : Processbuilder) (killRes : Option GoError)
    (logger : Bool) (c0 : Command) (tl : List Command)
    (hs : p.started = true) (he : p.exited = false) (hc : p.cmds = c0 :: tl) :
    (Kill p killRes logger).pb.cmds = { c0 with processKilled := true } :: tl ∧
    (Kill p killRes logger).pb.killed = true ∧
    (Kill p killRes logger).pb.exited = true ∧
    (Kill p killRes logger).err = killRes ∧
    ∀ kr2 lg2, (Kill (Kill p killRes logger).pb kr2 lg2).err =
      some GoError.errProcNotStarted := by
  simp only [Kill]
  simp only [hs, he, hc]
  simp

theorem kill_first_stage_only_witness :
    (Kill exStarted none false).pb.cmds = [{ exCmd with processKilled := true }] ∧
    (Kill exStarted none false).pb.killed = true :=
  have h := kill_first_stage_only exStarted none false exCmd [] rfl rfl rfl
  ⟨h.1, h.2.1⟩

/-- C2 (amended): each wrong-state call returns the defined state error and
sends no spawn or kill signal to any process, but the pipeline state is not
left unchanged: Start and Wait in the wrong state additionally run the
deferred cleanup, closing the pipeline (exited set, pipe ends closed) and
cancelling the shared context, while Kill and Cancel on a never-started
pipeline set the kill-requested flag before the state check. -/
theorem wrong_state_ops (p : Processbuilder) (spawn : Nat → Option GoError)
    (w : Nat → WaitOutcome) (killRes : Option GoError) (logger : Bool) :
    ((p.started = true ∨ p.exited = true) →
      (Start p spawn logger).err = some GoError.errProcAlreadyStarted ∧
      (Start p spawn logger).pb = cancelCtx p.close) ∧
    ((p.started = false ∨ p.exited = true) →
      (Wait p w logger).err = some GoError.errProcNotStarted ∧
      (Wait p w logger).code = -1 ∧
      (Wait p w logger).procState = none ∧
      (Wait p w logger).pb = cancelCtx p.close) ∧
    (p.started = false →
      (Kill p killRes logger).err = some GoError.errProcNotStarted ∧
      (Kill p killRes logger).pb = { p with killed := true }) ∧
    (p.started = false →
      (Cancel p logger).err = some GoError.errProcNotStarted ∧
      (Cancel p logger).pb = { p with killed := true }) ∧
    ∀ q : Processbuilder,
      (cancelCtx q.close).cmds.map Command.processSpawned =
        q.cmds.map Command.processSpawned ∧
      (cancelCtx q.close).cmds.map Command.processKilled =
        q.cmds.map Command.processKilled := by
  refine ⟨?_, ?_, ?_, ?_, ?_⟩
  · intro h
    have hc : (p.started || p.exited) = true := by
      rcases h with h | h <;> simp [h]
    simp only [Start, hc]
    simp
  · intro h
    have hc : (!p.started || p.exited) = true := by
      rcases h with h | h <;> simp [h]
    simp only [Wait, hc]
    simp
  · intro h
    have hc : (!p.started || p.exited) = true := by simp [h]
    simp only [Kill]
    simp only [h]
    simp
  · intro h
    have hc : (!p.started || p.exited) = true := by simp [h]
    simp only [Cancel]
    simp only [h]
    simp
  · intro q
    exact ⟨map_close_spawned q.cmds, map_close_killed q.cmds⟩

theorem wrong_state_ops_witness :
    (Start exStarted exSpawnOk false).err = some GoError.errProcAlreadyStarted ∧
    (Wait exCreated exWaitOk false).err = some GoError.errProcNotStarted ∧
    (Kill exCreated none false).pb = { exCreated with killed := true } :=
  ⟨((wrong_state_ops exStarted exSpawnOk exWaitOk none false).1 (Or.inl rfl)).1,
   ((wrong_state_ops exCreated exSpawnOk exWaitOk none false).2.1 (Or.inl rfl)).1,
   ((wrong_state_ops exCreated exSpawnOk exWaitOk none false).2.2.1 rfl).2⟩

theorem waitGo_fail_eq (killed : Bool) (w : Nat → WaitOutcome) (logger : Bool)
    (ll : Int) (total : Nat) :
    ∀ (rest done : List Command) (idx i : Nat) (e : GoError),
      idx ≤ i → i - idx < rest.length →
      (∀ j, idx ≤ j → j < i → (w j).err = none) →
      (w i).err = some e →
      (waitGo killed w logger ll total idx done rest).fail =
        some ((if killed then SIGINT else getExitCode (w i).stateCode e), i, e)
  | [], _done, _idx, _i, _e, _hle, hlt, _hok, _herr => by simp at hlt
  | c :: rest, done, idx, i, e, hle, hlt, hok, herr => by
    rcases Nat.eq_or_lt_of_le hle with heq | hlt2
    · subst heq
      simp [waitGo, herr]
    · have h0 : (w idx).err = none := hok idx le_rfl hlt2
      simp only [waitGo, h0]
      exact waitGo_fail_eq killed w logger ll total rest _ (idx + 1) i e hlt2
        (by simp only [List.length_cons] at hlt; omega)
        (fun j hj1 hj2 => hok j (by omega) hj2) herr

theorem waitGo_agree (killed : Bool) (logger : Bool) (ll : Int) (total : Nat)
    (w1 w2 : Nat → WaitOutcome) :
    ∀ (rest done : List Command) (idx i : Nat),
      idx ≤ i →
      (∀ j, idx ≤ j → j < i → (w1 j).err = none) →
      (w1 i).err ≠ none →
      (∀ j, idx ≤ j → j ≤ i → w2 j = w1 j) →
      waitGo killed w1 logger ll total idx done rest =
        waitGo killed w2 logger ll total idx done rest
  | [], _done, _idx, _i, _hle, _hok, _herr, _hagr => rfl
  | c :: rest, done, idx, i, hle, hok, herr, hagr => by
    have h2 : w2 idx = w1 idx := hagr idx le_rfl hle
    rcases Nat.eq_or_lt_of_le hle with heq | hlt2
    · subst heq
      rcases he : (w1 idx).err with _ | e
      · exact absurd he herr
      · simp [waitGo, he, h2]
    · have h0 : (w1 idx).err = none := hok idx le_rfl hlt2
      simp only [waitGo, h0, h2]
      rw [waitGo_agree killed logger ll total w1 w2 rest _ (idx + 1) i hlt2
        (fun j hj1 hj2 => hok j (by omega) hj2) herr
        (fun j hj1 hj2 => hagr j (by omega) hj2)]

theorem waitGo_clean_fail (killed : Bool) (w : Nat → WaitOutcome) (logger : Bool)
    (ll : Int) (total : Nat) :
    ∀ (rest done : List Command) (idx : Nat),
      (∀ j, idx ≤ j → j < idx + rest.length → (w j).err = none) →
      (waitGo killed w logger ll total idx done rest).fail = none
  | [], _done, _idx, _hok => rfl
  | c :: rest, done, idx, hok => by
    have h0 : (w idx).err = none := hok idx le_rfl (by simp)
    simp only [waitGo, h0]
    exact waitGo_clean_fail killed w logger ll total rest _ (idx + 1)
      (fun j hj1 hj2 => hok j (by omega) (by simp only [List.length_cons]; omega))

theorem waitGo_clean_last (killed : Bool) (w : Nat → WaitOutcome) (logger : Bool)
    (ll : Int) (total : Nat) :
    ∀ (rest done : List Command) (idx : Nat) (cl : Command),
      rest.getLast? = some cl →
      (∀ j, idx ≤ j → j < idx + rest.length → (w j).err = none) →
      (waitGo killed w logger ll total idx done rest).cmds.getLast? =
        some (closeWriterEnd { cl with exitCode := (w (idx + rest.length - 1)).stateCode })
  | [], _done, _idx, _cl, hlast, _hok => by simp at hlast
  | [c], done, idx, cl, hlast, hok => by
    have hcl : cl = c := by simp at hlast; exact hlast.symm
    subst hcl
    have h0 : (w idx).err = none := hok idx le_rfl (by simp)
    simp [waitGo, h0, List.getLast?_reverse]
  | c :: c2 :: rest, done, idx, cl, hlast, hok => by
    have h0 : (w idx).err = none := hok idx le_rfl (by simp)
    have hidx : idx + (c :: c2 :: rest).length - 1 = (idx + 1) + (c2 :: rest).length - 1 := by
      simp only [List.length_cons]
      omega
    rw [hidx]
    simp only [waitGo, h0]
    exact waitGo_clean_last killed w logger ll total (c2 :: rest) _ (idx + 1) cl
      (by simpa using hlast)
      (fun j hj1 hj2 => hok j (by omega) (by simp only [List.length_cons] at hj2 ⊢; omega))

/-- C1: exit-code reconciliation in Wait.  At the first failing stage, if
the wait error is an exec.ExitError carrying a WaitStatus that says the
process was terminated by a signal, the reported exit code is the SIGINT
sentinel rather than the OS-reported status; and whenever the
kill-requested flag is set the reported exit code is forced to SIGINT no
matter what the wait call reports. -/
theorem wait_exit_code_reconciliation (p : Processbuilder) (w : Nat → WaitOutcome)
    (logger : Bool) (i : Nat) (e : GoError)
    (hs : p.started = true) (he : p.exited = false)
    (hi : i < p.cmds.length)
    (hok : ∀ j, j < i → (w j).err = none)
    (herr : (w i).err = some e) :
    ((∃ s, e = GoError.exitError (some s) ∧ s.signaled = true) →
      (Wait p w logger).code = SIGINT) ∧
    (p.killed = true → (Wait p w logger).code = SIGINT) := by
  have hfail := waitGo_fail_eq p.killed w logger p.option.LogLevel p.cmds.length
    p.cmds [] 0 i e (Nat.zero_le i) (by omega) (fun j _ hj => hok j hj) herr
  have hcond : (!p.started || p.exited) = false := by simp [hs, he]
  have hcode : (Wait p w logger).code =
      (if p.killed then SIGINT else getExitCode (w i).stateCode e) := by
    simp [Wait, hcond, hfail]
  constructor
  · rintro ⟨s, rfl, hsig⟩
    rw [hcode]
    by_cases hk : p.killed = true
    · rw [if_pos hk]
    · rw [if_neg hk]
      simp [getExitCode, hsig]
  · intro hk
    rw [hcode, if_pos hk]

theorem wait_exit_code_reconciliation_witness :
    exStarted.started = true ∧ (Wait exStarted exSigOutcome false).code = SIGINT :=
  ⟨rfl,
    (wait_exit_code_reconciliation exStarted exSigOutcome false 0
      (GoError.exitError (some ⟨true, 137⟩)) rfl rfl (by decide)
      (fun j hj => absurd hj (Nat.not_lt_zero j)) rfl).1 ⟨⟨true, 137⟩, rfl, rfl⟩⟩

/-- C4: Wait handles the stages strictly in declared order: the first stage
whose wait fails determines the returned exit code, process state and
error, and the whole result of Wait is unchanged under any modification of
the oracle beyond that stage (later stages are not waited on); when every
stage completes cleanly, Wait returns the terminal stage exit code and
process state with no error. -/
theorem wait_order_and_first_failure (p : Processbuilder) (w : Nat → WaitOutcome)
    (logger : Bool) (hs : p.started = true) (he : p.exited = false)
    (hn : p.cmds ≠ []) :
    (∀ i e, i < p.cmds.length → (∀ j, j < i → (w j).err = none) →
      (w i).err = some e →
      (Wait p w logger).err = some e ∧
      (Wait p w logger).procState = some i ∧
      (Wait p w logger).code =
        (if p.killed then SIGINT else getExitCode (w i).stateCode e) ∧
      (∀ w2 : Nat → WaitOutcome, (∀ j, j ≤ i → w2 j = w j) →
        Wait p w2 logger = Wait p w logger)) ∧
    ((∀ j, j < p.cmds.length → (w j).err = none) →
      (Wait p w logger).err = none ∧
      (Wait p w logger).procState = some (p.cmds.length - 1) ∧
      (Wait p w logger).code = (w (p.cmds.length - 1)).stateCode) := by
  have hcond : (!p.started || p.exited) = false := by simp [hs, he]
  constructor
  · intro i e hi hok herr
    have hfail := waitGo_fail_eq p.killed w logger p.option.LogLevel p.cmds.length
      p.cmds [] 0 i e (Nat.zero_le i) (by omega) (fun j _ hj => hok j hj) herr
    refine ⟨?_, ?_, ?_, ?_⟩
    · simp [Wait, hcond, hfail]
    · simp [Wait, hcond, hfail]
    · simp [Wait, hcond, hfail]
    · intro w2 hagr
      have hg := waitGo_agree p.killed logger p.option.LogLevel p.cmds.length w w2
        p.cmds [] 0 i (Nat.zero_le i) (fun j _ hj => hok j hj)
        (by simp [herr]) (fun j _ hj => hagr j hj)
      simp only [Wait]
      rw [← hg]
  · intro hok
    have hf := waitGo_clean_fail p.killed w logger p.option.LogLevel p.cmds.length
      p.cmds [] 0 (fun j _ hj => hok j (by omega))
    obtain ⟨cl, hcl⟩ := Option.isSome_iff_exists.mp (List.getLast?_isSome.mpr hn)
    have hlast := waitGo_clean_last p.killed w logger p.option.LogLevel p.cmds.length
      p.cmds [] 0 cl hcl (fun j _ hj => hok j (by omega))
    refine ⟨?_, ?_, ?_⟩
    · simp [Wait, hcond, hf]
    · simp [Wait, hcond, hf]
    · simp [Wait, hcond, hf, hlast, closeWriterEnd]

theorem wait_order_and_first_failure_witness :
    (Wait exStarted exWaitOk false).err = none ∧
    (Wait exStarted exWaitOk false).code = 0 := by
  have h := (wait_order_and_first_failure exStarted exWaitOk false rfl rfl
    (by decide)).2 (fun j _ => rfl)
  exact ⟨h.1, by rw [h.2.2]; rfl⟩

theorem wireStderr_StdOut (c : Command) : (wireStderr c).StdOut = c.StdOut := by
  cases h : c.StdErr <;> simp [wireStderr, h]

theorem wireStderr_StdErr (c : Command) : (wireStderr c).StdErr = c.StdErr := by
  cases h : c.StdErr <;> simp [wireStderr, h]

theorem wireStdinFirst_StdOut (c : Command) : (wireStdinFirst c).StdOut = c.StdOut := by
  cases h : c.StdIn <;> simp [wireStdinFirst, h]

theorem wireStdinFirst_StdErr (c : Command) : (wireStdinFirst c).StdErr = c.StdErr := by
  cases h : c.StdIn <;> simp [wireStdinFirst, h]

theorem wireStderr_cmdStdout (c : Command) : (wireStderr c).cmdStdout = c.cmdStdout := by
  cases h : c.StdErr <;> simp [wireStderr, h]

theorem wireStdinFirst_cmdStdout (c : Command) :
    (wireStdinFirst c).cmdStdout = c.cmdStdout := by
  cases h : c.StdIn <;> simp [wireStdinFirst, h]

theorem wireStderr_cmdStderr (c : Command) : (wireStderr c).cmdStderr =
    (match c.StdErr with
     | some w => some w
     | none => c.cmdStderr) := by
  cases h : c.StdErr <;> simp [wireStderr, h]

theorem wireStage_StdOut (c : Command) (idx total : Nat) :
    (wireStage c idx total).StdOut = c.StdOut := by
  unfold wireStage
  dsimp only
  split_ifs <;> simp [wireStderr_StdOut, wireStdinFirst_StdOut, prepInit]

theorem wireStage_StdErr (c : Command) (idx total : Nat) :
    (wireStage c idx total).StdErr = c.StdErr := by
  unfold wireStage
  dsimp only
  split_ifs <;> simp [wireStderr_StdErr, wireStdinFirst_StdErr, prepInit]

theorem wireStage_cmdStdout (c : Command) (idx total : Nat) :
    (wireStage c idx total).cmdStdout =
      (if idx < total - 1 then some (Writer.pipeWriterOf idx) else none) := by
  unfold wireStage
  dsimp only
  split_ifs <;>
    simp [wireStderr_cmdStdout, wireStdinFirst_cmdStdout, prepInit]

theorem map_sinks_close (l : List Command) :
    (l.map Command.close).map sinks = l.map sinks := by
  induction l with
  | nil => rfl
  | cons c tl ih => simp [Command.close, sinks, ih]

theorem prepareCmds_sinks (so logger : Bool) (ll : Int) (total : Nat) :
    ∀ (rest done : List Command) (idx : Nat),
      (prepareCmds so logger ll total idx done rest).cmds.map sinks =
        (done.reverse ++ rest).map sinks
  | [], done, idx => by simp [prepareCmds]
  | c :: rest, done, idx => by
    have ih := prepareCmds_sinks so logger ll total rest
    simp only [prepareCmds]
    split_ifs <;> (try split) <;>
      simp [ih, sinks, prepInit, wireStage_StdOut, wireStage_StdErr,
        List.reverse_cons, List.append_assoc]

theorem prepare_sinks (p : Processbuilder) (logger : Bool) :
    (p.prepare logger).pb.cmds.map sinks = p.cmds.map sinks := by
  unfold Processbuilder.prepare
  dsimp only
  split
  · rfl
  · simpa using prepareCmds_sinks p.option.stdoutPipe logger p.option.LogLevel
      p.cmds.length p.cmds [] 0

theorem startGo_sinks (spawn : Nat → Option GoError) (logger : Bool) (ll : Int)
    (total : Nat) :
    ∀ (rest done : List Command) (idx : Nat),
      (startGo spawn logger ll total idx done rest).cmds.map sinks =
        (done.reverse ++ rest).map sinks
  | [], done, idx => by simp [startGo]
  | c :: rest, done, idx => by
    have ih := startGo_sinks spawn logger ll total rest
    simp only [startGo]
    rcases h : spawn idx with _ | e
    · simp [h, ih, sinks, List.reverse_cons, List.append_assoc]
    · simp [h]

theorem Start_sinks (p : Processbuilder) (spawn : Nat → Option GoError) (logger : Bool) :
    (Start p spawn logger).pb.cmds.map sinks = p.cmds.map sinks := by
  unfold Start
  dsimp only
  split
  · simpa [cancelCtx, Processbuilder.close] using map_sinks_close p.cmds
  · rcases he : (startGo spawn logger p.option.LogLevel p.cmds.length 0 [] p.cmds).err
      with _ | e
    · simpa using startGo_sinks spawn logger p.option.LogLevel p.cmds.length p.cmds [] 0
    · have h1 := map_sinks_close
        (startGo spawn logger p.option.LogLevel p.cmds.length 0 [] p.cmds).cmds
      have h2 := startGo_sinks spawn logger p.option.LogLevel p.cmds.length p.cmds [] 0
      simp only [cancelCtx, Processbuilder.close]
      simpa using h1.trans (by simpa using h2)

theorem waitGo_sinks (killed : Bool) (w : Nat → WaitOutcome) (logger : Bool)
    (ll : Int) (total : Nat) :
    ∀ (rest done : List Command) (idx : Nat),
      (waitGo killed w logger ll total idx done rest).cmds.map sinks =
        (done.reverse ++ rest).map sinks
  | [], done, idx => by simp [waitGo]
  | c :: rest, done, idx => by
    have ih := waitGo_sinks killed w logger ll total rest
    simp only [waitGo]
    rcases h : (w idx).err with _ | e
    · rcases done with _ | ⟨pc, ds⟩ <;> rcases Nat.eq_zero_or_pos idx with h0 | h0 <;>
        simp [h, h0, ih, sinks, closeWriterEnd, closeReaderEnd, List.reverse_cons,
          List.append_assoc]
    · simp [h]

theorem Wait_sinks (p : Processbuilder) (w : Nat → WaitOutcome) (logger : Bool) :
    (Wait p w logger).pb.cmds.map sinks = p.cmds.map sinks := by
  unfold Wait
  dsimp only
  split
  · simpa [cancelCtx, Processbuilder.close] using map_sinks_close p.cmds
  · have h1 := map_sinks_close
      (waitGo p.killed w logger p.option.LogLevel p.cmds.length 0 [] p.cmds).cmds
    have h2 := waitGo_sinks p.killed w logger p.option.LogLevel p.cmds.length p.cmds [] 0
    rcases hf : (waitGo p.killed w logger p.option.LogLevel p.cmds.length 0 [] p.cmds).fail
      with _ | ⟨code, idx, e⟩ <;>
      · simp only [cancelCtx, Processbuilder.close]
        simpa using h1.trans (by simpa using h2)

theorem sinks_installOutputSinks (c : Command) :
    sinks (installOutputSinks c) =
      ((if c.StdOut = none then some Writer.outBuffer else c.StdOut),
        some Writer.errBuffer) := by
  by_cases h : c.StdOut = none <;> simp [installOutputSinks, h, sinks]

/-- C6 counterexample: on a single-stage pipeline whose terminal stage has a
caller-supplied output sink and a caller-supplied error sink, Output
overwrites the caller error sink with the internal error buffer (it is not
left in place) and keeps the caller output sink (no internal buffer is
installed as stdout), so the claim as stated is false at this input. -/
theorem output_overwrites_caller_stderr_sink :
    (exC6.output exSpawnOk exWaitOk false).pb.cmds.map sinks =
      [(some (Writer.caller 1), some Writer.errBuffer)] ∧
    (some Writer.errBuffer ≠ some (Writer.caller 0)) ∧
    (some (Writer.caller 1) ≠ some Writer.outBuffer) := by
  refine ⟨by decide, by decide, by decide⟩

/-- C6 (amended): in capture mode, output installs the internal buffer as
the terminal stage stdout only when the caller did not already supply an
output sink (a caller-supplied output sink is left in place), and it
installs the internal error buffer as the terminal stage stderr
unconditionally, replacing any caller-supplied error sink; the sinks of all
other stages are untouched. -/
theorem output_sink_installation (p : Processbuilder) (spawn : Nat → Option GoError)
    (w : Nat → WaitOutcome) (logger : Bool) (lc : Command)
    (hl : p.cmds.getLast? = some lc) :
    (p.output spawn w logger).pb.cmds.map sinks =
      p.cmds.dropLast.map sinks ++
        [((if lc.StdOut = none then some Writer.outBuffer else lc.StdOut),
          some Writer.errBuffer)] := by
  have hne : p.cmds ≠ [] := by
    intro hc
    rw [hc] at hl
    simp at hl
  have hcount : ¬ p.Count = 0 := by
    simpa [Processbuilder.Count, List.length_eq_zero] using hne
  have htarget : (p.cmds.dropLast ++ [installOutputSinks lc]).map sinks =
      p.cmds.dropLast.map sinks ++
        [((if lc.StdOut = none then some Writer.outBuffer else lc.StdOut),
          some Writer.errBuffer)] := by
    simp [sinks_installOutputSinks]
  unfold Processbuilder.output
  dsimp only
  rw [if_neg hcount, hl]
  rcases hpe : (Processbuilder.prepare
      { p with cmds := p.cmds.dropLast ++ [installOutputSinks lc] } logger).err
    with _ | e
  · rcases hse : (Start (Processbuilder.prepare
        { p with cmds := p.cmds.dropLast ++ [installOutputSinks lc] } logger).pb
        spawn logger).err with _ | e
    · rw [Wait_sinks, Start_sinks, prepare_sinks]
      exact htarget
    · rw [Start_sinks, prepare_sinks]
      exact htarget
  · rw [prepare_sinks]
    exact htarget

theorem output_sink_installation_witness :
    (exC6.output exSpawnOk exWaitOk false).pb.cmds.map sinks =
      [(some (Writer.caller 1), some Writer.errBuffer)] := by
  have h := output_sink_installation exC6 exSpawnOk exWaitOk false
    (((NewCommand "ls" ["-la"]).WithStdErr (Writer.caller 0)).WithStdOut
      (Writer.caller 1)) rfl
  rw [h]
  decide

/-- C7 counterexample: when stage 2 has an input override but stage 1 (an
earlier, non-last stage) has an output override, construction does fail but
with the stdout-placement error, not the stdin-placement error, so the
claim as stated is false at this input. -/
theorem stdin_error_masked_by_stdout_error :
    (Create EmptyOption exC7cmds false).err = some GoError.errStdoutPlacement ∧
    GoError.errStdoutPlacement ≠ GoError.errStdinPlacement ∧
    (exC7cmds.get? 2).map Command.StdIn = some (some (Reader.caller 1)) := by
  refine ⟨by decide, by decide, by decide⟩

theorem installOutputSinks_StdIn (c : Command) :
    (installOutputSinks c).StdIn = c.StdIn := by
  by_cases h : c.StdOut = none <;> simp [installOutputSinks, h]

theorem prepareCmds_stdin_err (so logger : Bool) (ll : Int) (total : Nat) :
    ∀ (rest done : List Command) (idx k : Nat) (ck : Command),
      idx + rest.length = total →
      idx ≤ k →
      rest.get? (k - idx) = some ck →
      ck.StdIn ≠ none → k ≠ 0 →
      (∀ j cj, idx ≤ j → j < k → rest.get? (j - idx) = some cj →
        j ≠ total - 1 → cj.StdOut = none) →
      (prepareCmds so logger ll total idx done rest).err =
        some GoError.errStdinPlacement
  | [], _done, _idx, _k, _ck, _htot, _hle, hget, _hin, _hk0, _hout => by simp at hget
  | c :: rest, done, idx, k, ck, htot, hle, hget, hin, hk0, hout => by
    rcases Nat.eq_or_lt_of_le hle with heq | hlt
    · subst heq
      have hck : c = ck := by simpa using hget
      subst hck
      have hcond : idx ≠ 0 ∧ (prepInit c).StdIn ≠ none :=
        ⟨hk0, by simpa [prepInit] using hin⟩
      simp only [prepareCmds]
      rw [if_pos hcond]
    · have hgets : rest.get? (k - (idx + 1)) = some ck := by
        have h1 : k - idx = (k - (idx + 1)) + 1 := by omega
        rw [h1] at hget
        simpa using hget
      have hb : k - (idx + 1) < rest.length := by
        by_contra hcon
        rw [List.get?_eq_none.mpr (by omega)] at hgets
        simp at hgets
      have hklt : k < total := by
        simp only [List.length_cons] at htot
        omega
      by_cases hc1 : idx ≠ 0 ∧ (prepInit c).StdIn ≠ none
      · simp only [prepareCmds]
        rw [if_pos hc1]
      · have hstdout : (prepInit c).StdOut = none := by
          have := hout idx c le_rfl hlt (by simp) (by omega)
          simpa [prepInit] using this
        have hc2 : ¬(idx ≠ total - 1 ∧ (prepInit c).StdOut ≠ none) := by
          simp [hstdout]
        have hc3 : ¬ idx = total - 1 := by omega
        simp only [prepareCmds]
        rw [if_neg hc1, if_neg hc2, if_neg hc3]
        exact prepareCmds_stdin_err so logger ll total rest _ (idx + 1) k ck
          (by simp only [List.length_cons] at htot; omega) hlt hgets hin hk0
          (fun j cj hj1 hj2 hg hne2 => hout j cj (by omega) hj2
            (by
              have h2 : j - idx = (j - (idx + 1)) + 1 := by omega
              rw [h2]
              simpa using hg) hne2)

/-- C7 (amended): if stage k (k > 0) has an input-stream override then
pipeline construction through Create, PipeOutput or Output fails and
returns no pipeline; the reported error is the stdin-placement error
provided no earlier non-last stage carries an output override (otherwise
the stdout-placement check of that earlier stage fires first). -/
theorem stdin_placement_validation (option : POption) (cmds : List Command)
    (spawn : Nat → Option GoError) (w : Nat → WaitOutcome) (logger : Bool)
    (k : Nat) (ck : Command)
    (hk0 : k ≠ 0) (hget : cmds.get? k = some ck) (hin : ck.StdIn ≠ none)
    (hout : ∀ j cj, j < k → cmds.get? j = some cj → j ≠ cmds.length - 1 →
      cj.StdOut = none) :
    (Create option cmds logger).pb = none ∧
    (Create option cmds logger).err = some GoError.errStdinPlacement ∧
    (PipeOutput option cmds logger).pb = none ∧
    (PipeOutput option cmds logger).err = some GoError.errStdinPlacement ∧
    (Output option cmds spawn w logger).err = some GoError.errStdinPlacement := by
  have hkb : k < cmds.length := by
    by_contra hcon
    rw [List.get?_eq_none.mpr (by omega)] at hget
    simp at hget
  have hne : cmds ≠ [] := by
    intro h
    subst h
    simp at hget
  have hlen0 : ¬ cmds.length = 0 := by
    simpa [List.length_eq_zero] using hne
  have hperr : ∀ (so lg : Bool) (ll : Int),
      (prepareCmds so lg ll cmds.length 0 [] cmds).err =
        some GoError.errStdinPlacement := by
    intro so lg ll
    refine prepareCmds_stdin_err so lg ll cmds.length cmds [] 0 k ck (by simp)
      (Nat.zero_le k) (by simpa using hget) hin hk0 ?_
    intro j cj _ hj2 hg hne2
    exact hout j cj hj2 (by simpa using hg) hne2
  have hcreate : ∀ (opt2 : POption),
      (Processbuilder.prepare { cmds := cmds, option := opt2 } logger).err =
        some GoError.errStdinPlacement := by
    intro opt2
    unfold Processbuilder.prepare
    dsimp only
    rw [if_neg hlen0]
    exact hperr opt2.stdoutPipe logger opt2.LogLevel
  have hc1 : (Create option cmds logger).pb = none ∧
      (Create option cmds logger).err = some GoError.errStdinPlacement := by
    unfold Create
    dsimp only
    rw [hcreate option]
    exact ⟨rfl, rfl⟩
  have hc2 : (PipeOutput option cmds logger).pb = none ∧
      (PipeOutput option cmds logger).err = some GoError.errStdinPlacement := by
    unfold PipeOutput
    dsimp only
    rw [hcreate { option with stdoutPipe := true }]
    exact ⟨rfl, rfl⟩
  obtain ⟨lc, hlc⟩ := Option.isSome_iff_exists.mp (List.getLast?_isSome.mpr hne)
  have hsplit : cmds.dropLast ++ [lc] = cmds := by
    have h1 := List.dropLast_concat_getLast hne
    have h2 : cmds.getLast hne = lc := by
      have h3 := List.getLast?_eq_getLast cmds hne
      rw [h3] at hlc
      simpa using hlc
    rw [h2] at h1
    exact h1
  have hdrop : cmds.dropLast.length = cmds.length - 1 := List.length_dropLast cmds
  have hmlen : (cmds.dropLast ++ [installOutputSinks lc]).length = cmds.length := by
    simp only [List.length_append, List.length_dropLast, List.length_cons,
      List.length_nil]
    omega
  have hck2 : ∃ ck2, (cmds.dropLast ++ [installOutputSinks lc]).get? k = some ck2 ∧
      ck2.StdIn ≠ none := by
    by_cases hk1 : k < cmds.length - 1
    · refine ⟨ck, ?_, hin⟩
      rw [List.get?_append (by omega)]
      have h4 := hget
      rw [← hsplit, List.get?_append (by omega)] at h4
      exact h4
    · have hkeq : k = cmds.length - 1 := by omega
      have h5 : cmds.get? k = some lc := by
        rw [hkeq, ← List.getLast?_eq_get?]
        exact hlc
      have h6 : ck = lc := by
        rw [hget] at h5
        simpa using h5
      refine ⟨installOutputSinks lc, ?_, ?_⟩
      · rw [List.get?_append_right (by omega), hkeq, hdrop]
        simp
      · rw [installOutputSinks_StdIn, ← h6]
        exact hin
  obtain ⟨ck2, hg2, hin2⟩ := hck2
  have hout2 : ∀ j cj, j < k →
      (cmds.dropLast ++ [installOutputSinks lc]).get? j = some cj →
      j ≠ (cmds.dropLast ++ [installOutputSinks lc]).length - 1 →
      cj.StdOut = none := by
    intro j cj hj hg _hne2
    have hjlt : j < cmds.length - 1 := by omega
    rw [List.get?_append (by omega)] at hg
    have hgc : cmds.get? j = some cj := by
      rw [← hsplit, List.get?_append (by omega)]
      exact hg
    exact hout j cj hj hgc (by omega)
  have hperr2 : ∀ (so2 : Bool) (ll : Int),
      (prepareCmds so2 logger ll (cmds.dropLast ++ [installOutputSinks lc]).length 0 []
        (cmds.dropLast ++ [installOutputSinks lc])).err =
        some GoError.errStdinPlacement := by
    intro so2 ll
    refine prepareCmds_stdin_err so2 logger ll
      (cmds.dropLast ++ [installOutputSinks lc]).length
      (cmds.dropLast ++ [installOutputSinks lc]) [] 0 k ck2
      (by simp) (Nat.zero_le k) (by simpa using hg2) hin2 hk0 ?_
    intro j cj _ hj2 hg hne2
    exact hout2 j cj hj2 (by simpa using hg) hne2
  have hprep2 : ∀ (q : Processbuilder),
      q.cmds = cmds.dropLast ++ [installOutputSinks lc] →
      (q.prepare logger).err = some GoError.errStdinPlacement := by
    intro q hq
    unfold Processbuilder.prepare
    dsimp only
    rw [hq]
    rw [if_neg (by rw [hmlen]; exact hlen0)]
    exact hperr2 q.option.stdoutPipe q.option.LogLevel
  have ho : (Output option cmds spawn w logger).err =
      some GoError.errStdinPlacement := by
    unfold Output Processbuilder.output
    dsimp only
    rw [if_neg (by simpa [Processbuilder.Count, List.length_eq_zero] using hne)]
    simp only [hlc]
    rcases hpe : (Processbuilder.prepare
        { cmds := cmds.dropLast ++ [installOutputSinks lc], option := option }
        logger).err with _ | e
    · exact absurd (hpe.symm.trans
        (hprep2 { cmds := cmds.dropLast ++ [installOutputSinks lc], option := option }
          rfl)) (by simp)
    · have h7 := hprep2
        { cmds := cmds.dropLast ++ [installOutputSinks lc], option := option } rfl
      rw [hpe] at h7
      simpa using h7
  exact ⟨hc1.1, hc1.2, hc2.1, hc2.2, ho⟩

theorem stdin_placement_validation_witness :
    (Create EmptyOption exC7b false).pb = none ∧
    (Create EmptyOption exC7b false).err = some GoError.errStdinPlacement := by
  have h := stdin_placement_validation EmptyOption exC7b exSpawnOk exWaitOk false
    1 ((NewCommand "b" []).WithStdIn (Reader.caller 0)) (by decide) rfl (by decide)
    (by
      intro j cj hj hg hne2
      have hj0 : j = 0 := by omega
      subst hj0
      have : cj = NewCommand "a" [] := by simpa [exC7b] using hg.symm
      rw [this]
      rfl)
  exact ⟨h.1, h.2.1⟩

theorem waitGo_logger (killed : Bool) (w : Nat → WaitOutcome) (ll : Int) (total : Nat) :
    ∀ (rest done : List Command) (idx : Nat),
      (waitGo killed w true ll total idx done rest).cmds =
        (waitGo killed w false ll total idx done rest).cmds ∧
      (waitGo killed w true ll total idx done rest).fail =
        (waitGo killed w false ll total idx done rest).fail
  | [], _done, _idx => ⟨rfl, rfl⟩
  | c :: rest, done, idx => by
    have ih := waitGo_logger killed w ll total rest
    rcases h : (w idx).err with _ | e
    · simp only [waitGo, h]
      exact ⟨(ih _ _).1, (ih _ _).2⟩
    · simp [waitGo, h]

theorem runGo_logger (killed : Bool) (w : Nat → WaitOutcome) (ll : Int) (total : Nat) :
    ∀ (rest done : List Command) (idx : Nat),
      (runGo killed w true ll total idx done rest).cmds =
        (runGo killed w false ll total idx done rest).cmds ∧
      (runGo killed w true ll total idx done rest).fail =
        (runGo killed w false ll total idx done rest).fail
  | [], _done, _idx => ⟨rfl, rfl⟩
  | c :: rest, done, idx => by
    have ih := runGo_logger killed w ll total rest
    rcases h : (w idx).err with _ | e
    · simp only [runGo, h]
      exact ⟨(ih _ _).1, (ih _ _).2⟩
    · simp [runGo, h]

theorem startGo_logger (spawn : Nat → Option GoError) (ll : Int) (total : Nat) :
    ∀ (rest done : List Command) (idx : Nat),
      (startGo spawn true ll total idx done rest).cmds =
        (startGo spawn false ll total idx done rest).cmds ∧
      (startGo spawn true ll total idx done rest).err =
        (startGo spawn false ll total idx done rest).err
  | [], _done, _idx => ⟨rfl, rfl⟩
  | c :: rest, done, idx => by
    have ih := startGo_logger spawn ll total rest
    rcases h : spawn idx with _ | e
    · simp only [startGo, h]
      exact ⟨(ih _ _).1, (ih _ _).2⟩
    · simp [startGo, h]

theorem prepareCmds_logger (so : Bool) (ll : Int) (total : Nat) :
    ∀ (rest done : List Command) (idx : Nat),
      (prepareCmds so true ll total idx done rest).cmds =
        (prepareCmds so false ll total idx done rest).cmds ∧
      (prepareCmds so true ll total idx done rest).soPipe =
        (prepareCmds so false ll total idx done rest).soPipe ∧
      (prepareCmds so true ll total idx done rest).sePipe =
        (prepareCmds so false ll total idx done rest).sePipe ∧
      (prepareCmds so true ll total idx done rest).err =
        (prepareCmds so false ll total idx done rest).err
  | [], _done, _idx => ⟨rfl, rfl, rfl, rfl⟩
  | c :: rest, done, idx => by
    have ih := prepareCmds_logger so ll total rest
    simp only [prepareCmds]
    split_ifs <;> (try split) <;>
      refine ⟨?_, ?_, ?_, ?_⟩ <;>
      first
      | rfl
      | exact (ih _ _).1
      | exact (ih _ _).2.1
      | exact (ih _ _).2.2.1
      | exact (ih _ _).2.2.2

theorem prepare_logger (p : Processbuilder) :
    (p.prepare true).pb = (p.prepare false).pb ∧
    (p.prepare true).err = (p.prepare false).err := by
  have h := prepareCmds_logger p.option.stdoutPipe p.option.LogLevel
    p.cmds.length p.cmds [] 0
  unfold Processbuilder.prepare
  dsimp only
  by_cases h0 : p.cmds.length = 0
  · rw [if_pos h0, if_pos h0]
    exact ⟨rfl, rfl⟩
  · rw [if_neg h0, if_neg h0]
    refine ⟨?_, h.2.2.2⟩
    dsimp only
    rw [h.1, h.2.1, h.2.2.1]

theorem Start_logger (p : Processbuilder) (spawn : Nat → Option GoError) :
    (Start p spawn true).pb = (Start p spawn false).pb ∧
    (Start p spawn true).err = (Start p spawn false).err := by
  unfold Start
  dsimp only
  split_ifs with h0
  · exact ⟨rfl, rfl⟩
  · have h := startGo_logger spawn p.option.LogLevel p.cmds.length p.cmds [] 0
    rw [h.1, h.2]
    rcases he : (startGo spawn false p.option.LogLevel p.cmds.length 0 [] p.cmds).err
      with _ | e
    · exact ⟨rfl, rfl⟩
    · exact ⟨rfl, rfl⟩

theorem Wait_logger (p : Processbuilder) (w : Nat → WaitOutcome) :
    (Wait p w true).pb = (Wait p w false).pb ∧
    (Wait p w true).code = (Wait p w false).code ∧
    (Wait p w true).procState = (Wait p w false).procState ∧
    (Wait p w true).err = (Wait p w false).err := by
  unfold Wait
  dsimp only
  split_ifs with h0
  · exact ⟨rfl, rfl, rfl, rfl⟩
  · have h := waitGo_logger p.killed w p.option.LogLevel p.cmds.length p.cmds [] 0
    rw [h.1, h.2]
    rcases hf : (waitGo p.killed w false p.option.LogLevel p.cmds.length 0 [] p.cmds).fail
      with _ | ⟨code, idx, e⟩
    · exact ⟨rfl, rfl, rfl, rfl⟩
    · exact ⟨rfl, rfl, rfl, rfl⟩

theorem Run_logger (p : Processbuilder) (w : Nat → WaitOutcome) :
    (Run p w true).pb = (Run p w false).pb ∧
    (Run p w true).code = (Run p w false).code ∧
    (Run p w true).procState = (Run p w false).procState ∧
    (Run p w true).err = (Run p w false).err := by
  unfold Run
  dsimp only
  split_ifs with h0
  · exact ⟨rfl, rfl, rfl, rfl⟩
  · have h := runGo_logger p.killed w p.option.LogLevel p.cmds.length p.cmds [] 0
    rw [h.1, h.2]
    rcases hf : (runGo p.killed w false p.option.LogLevel p.cmds.length 0 [] p.cmds).fail
      with _ | ⟨code, idx, e⟩
    · exact ⟨rfl, rfl, rfl, rfl⟩
    · exact ⟨rfl, rfl, rfl, rfl⟩

theorem Kill_logger (p : Processbuilder) (killRes : Option GoError) :
    (Kill p killRes true).pb = (Kill p killRes false).pb ∧
    (Kill p killRes true).err = (Kill p killRes false).err := by
  unfold Kill
  dsimp only
  split_ifs <;> exact ⟨rfl, rfl⟩

theorem Cancel_logger (p : Processbuilder) :
    (Cancel p true).pb = (Cancel p false).pb ∧
    (Cancel p true).err = (Cancel p false).err := by
  unfold Cancel
  dsimp only
  split_ifs <;> exact ⟨rfl, rfl⟩

/-- C9: the absence of the injected logger does not alter behavior: for
every pipeline and every OS oracle, prepare, Start, Wait, Run, Kill and
Cancel produce exactly the same resulting state, errors, exit codes and
process states whether the logger is nil or installed — only the emitted
log lines differ. -/
theorem logger_absence_transparent (p : Processbuilder) (spawn : Nat → Option GoError)
    (w w2 : Nat → WaitOutcome) (killRes : Option GoError) :
    ((p.prepare true).pb = (p.prepare false).pb ∧
     (p.prepare true).err = (p.prepare false).err) ∧
    ((Start p spawn true).pb = (Start p spawn false).pb ∧
     (Start p spawn true).err = (Start p spawn false).err) ∧
    ((Wait p w true).pb = (Wait p w false).pb ∧
     (Wait p w true).code = (Wait p w false).code ∧
     (Wait p w true).procState = (Wait p w false).procState ∧
     (Wait p w true).err = (Wait p w false).err) ∧
    ((Run p w2 true).pb = (Run p w2 false).pb ∧
     (Run p w2 true).code = (Run p w2 false).code ∧
     (Run p w2 true).procState = (Run p w2 false).procState ∧
     (Run p w2 true).err = (Run p w2 false).err) ∧
    ((Kill p killRes true).pb = (Kill p killRes false).pb ∧
     (Kill p killRes true).err = (Kill p killRes false).err) ∧
    ((Cancel p true).pb = (Cancel p false).pb ∧
     (Cancel p true).err = (Cancel p false).err) :=
  ⟨prepare_logger p, Start_logger p spawn, Wait_logger p w, Run_logger p w2,
   Kill_logger p killRes, Cancel_logger p⟩

end processbuilder
